import Mathlib

/-!
Verification of the decky-romm-sync save-synchronization surface.

The definitions below are a shallow embedding of the repository's
TypeScript source: the save-sync panel handlers (`handleResolve`,
`handleRetry`, `handleSyncAll`, `handleClearQueue`,
`handleSettingChange` and `conflictModeOptions`), the platform-toggle
handlers (`handleToggle`, `handleSetAll`), the Steam-collection
helpers (`createOrUpdateCollections`, `clearAllRomMCollections`), and
the `sync_progress` event listener.  Asynchronous backend calls are
modelled by passing their outcome as an explicit argument and by
recording, for each handler run, the list of backend calls it makes.
Components whose implementation lives in the Python backend (settings
validation, the newest-wins resolver, the progress store setter) are
modelled from the spec and marked as such in their doc comments.
-/

namespace RommSync

/-- A pending save-file conflict, uniquely keyed by `(rom_id, filename)`
(spec §3; fields as used by the save-sync panel). -/
structure PendingConflict where
  rom_id : Int
  filename : String
  created_at : String
deriving DecidableEq, Repr

/-- An entry of the offline operation queue, keyed by `(rom_id, filename)`
(spec §3; fields as used by the save-sync panel). -/
structure OfflineQueueItem where
  rom_id : Int
  filename : String
  operation : String
  error : String
  failed_at : String
  attempt_count : Nat
deriving DecidableEq, Repr

/-- Save-sync settings record (spec §3; `conflict_mode` is carried as a
string, as in the TypeScript union type). -/
structure SaveSyncSettings where
  sync_before_launch : Bool
  sync_after_exit : Bool
  conflict_mode : String
deriving DecidableEq, Repr

/-- The transient sync-progress value (src/types `SyncProgress`:
`running` plus optional `phase`, `current`, `total`, `message`). -/
structure SyncProgress where
  running : Bool
  phase : Option String
  current : Option Nat
  total : Option Nat
  message : Option String
deriving DecidableEq, Repr

/-- The record returned by `syncAllSaves()` — spec §6 gives its type as
`{message, conflicts: int}`, matching the only fields the panel reads
(`result.message`, `result.conflicts`). -/
structure SyncAllResult where
  message : String
  conflicts : Nat
deriving DecidableEq, Repr

/-- One platform row of the platform-sync page (src/types
`PlatformSyncSetting` as used by PlatformSync.tsx). -/
structure PlatformSyncSetting where
  id : Int
  name : String
  rom_count : Nat
  sync_enabled : Bool
deriving DecidableEq, Repr

/-- `String.startsWith`, modelled as a prefix test on the character
sequence (the library implementation does not reduce in the kernel;
this definition agrees with it on all inputs). -/
def stringStartsWith (s pre : String) : Bool :=
  pre.data.isPrefixOf s.data

/-- A Steam collection as seen through `collectionStore`
(src/unnamed/part_003; `visibleApps` modelled as a list of app ids). -/
structure SteamCollection where
  id : String
  displayName : String
  visibleApps : List Int
deriving DecidableEq, Repr

/-- Backend/API calls a panel handler can issue (src/api/backend imports
of part_001). -/
inductive BackendCall where
  | resolveConflict (rom_id : Int) (filename : String) (resolution : String)
  | retryFailedSync (rom_id : Int) (filename : String)
  | syncAllSaves
  | getPendingConflicts
  | getOfflineQueue
  | clearOfflineQueue
deriving DecidableEq, Repr

/-- Which backend calls perform an upload/download transfer: per spec
§4.2 a resolve performs the chosen transfer, per §4.3 a retry
re-attempts the recorded operation, and `syncAllSaves` drives a full
pass of transfers; `clearOfflineQueue` and the getters move no save
data (spec §4.3: clearAll empties the queue "without attempting any
transfers"). -/
def attemptsTransfer : BackendCall → Bool
  | .resolveConflict _ _ _ => true
  | .retryFailedSync _ _ => true
  | .syncAllSaves => true
  | .getPendingConflicts => false
  | .getOfflineQueue => false
  | .clearOfflineQueue => false

/-- The React state of the SaveSyncSettings panel (part_001 lines
34-40). -/
structure SaveSyncUIState where
  settings : Option SaveSyncSettings
  conflicts : List PendingConflict
  failedOps : List OfflineQueueItem
  syncing : Bool
  syncStatus : String
  resolving : Option String
  retrying : Option String
deriving DecidableEq, Repr

/-- `handleResolve` (part_001 lines 95-107): issues `resolveConflict`;
on success filters the resolved key out of the conflicts list; on
failure (the call throws) only logs.  `setResolving(key)` followed by
`setResolving(null)` nets to `none`.  Returns the final state and the
backend calls made. -/
def handleResolve (st : SaveSyncUIState) (conflict : PendingConflict)
    (resolution : String) (ok : Bool) : SaveSyncUIState × List BackendCall :=
  let calls := [BackendCall.resolveConflict conflict.rom_id conflict.filename resolution]
  if ok then
    ({ st with
        conflicts := st.conflicts.filter
          (fun c => !(c.rom_id == conflict.rom_id && c.filename == conflict.filename)),
        resolving := none }, calls)
  else
    ({ st with resolving := none }, calls)

/-- `handleRetry` (part_001 lines 109-123): issues `retryFailedSync`;
outcome `some true` = call returned `{success:true}` (entry filtered
out), `some false` = returned `{success:false}` (no state change),
`none` = call threw (caught; no state change). -/
def handleRetry (st : SaveSyncUIState) (item : OfflineQueueItem)
    (outcome : Option Bool) : SaveSyncUIState × List BackendCall :=
  let calls := [BackendCall.retryFailedSync item.rom_id item.filename]
  match outcome with
  | some true =>
    ({ st with
        failedOps := st.failedOps.filter
          (fun f => !(f.rom_id == item.rom_id && f.filename == item.filename)),
        retrying := none }, calls)
  | some false => ({ st with retrying := none }, calls)
  | none => ({ st with retrying := none }, calls)

/-- `loadConflicts` (part_001 lines 50-57): replaces the conflicts list
with the fetched one; a failed fetch (`none`) is caught and changes
nothing. -/
def loadConflicts (st : SaveSyncUIState)
    (fetched : Option (List PendingConflict)) : SaveSyncUIState :=
  match fetched with
  | some cs => { st with conflicts := cs }
  | none => st

/-- `loadFailedOps` (part_001 lines 59-66): replaces the offline-queue
list with the fetched one; a failed fetch changes nothing. -/
def loadFailedOps (st : SaveSyncUIState)
    (fetched : Option (List OfflineQueueItem)) : SaveSyncUIState :=
  match fetched with
  | some qs => { st with failedOps := qs }
  | none => st

/-- `handleSyncAll` (part_001 lines 79-93): issues `syncAllSaves`.  On
a result, sets the status message, reloads conflicts only when
`result.conflicts > 0`, and always reloads the offline queue; on throw
sets "Sync failed".  `syncing` is true during the run and false at the
end. -/
def handleSyncAll (st : SaveSyncUIState) (outcome : Option SyncAllResult)
    (fetchedConflicts : Option (List PendingConflict))
    (fetchedQueue : Option (List OfflineQueueItem)) :
    SaveSyncUIState × List BackendCall :=
  match outcome with
  | some r =>
    let st1 := { st with syncStatus := r.message }
    let st2 := if r.conflicts > 0 then loadConflicts st1 fetchedConflicts else st1
    let st3 := loadFailedOps st2 fetchedQueue
    ({ st3 with syncing := false },
      [BackendCall.syncAllSaves]
        ++ (if r.conflicts > 0 then [BackendCall.getPendingConflicts] else [])
        ++ [BackendCall.getOfflineQueue])
  | none =>
    ({ st with syncStatus := "Sync failed", syncing := false },
      [BackendCall.syncAllSaves])

/-- `handleClearQueue` (part_001 lines 125-132): issues
`clearOfflineQueue`; on success empties the local queue list; on throw
(caught) changes nothing. -/
def handleClearQueue (st : SaveSyncUIState) (ok : Bool) :
    SaveSyncUIState × List BackendCall :=
  if ok then
    ({ st with failedOps := [] }, [BackendCall.clearOfflineQueue])
  else
    (st, [BackendCall.clearOfflineQueue])

/-- `conflictModeOptions` (part_001 lines 26-31): the dropdown's
`(data, label)` pairs — the only values the settings UI can submit as
`conflict_mode`. -/
def conflictModeOptions : List (String × String) :=
  [("newest_wins", "Newest Wins (Default)"),
   ("always_upload", "Always Upload"),
   ("always_download", "Always Download"),
   ("ask_me", "Ask Me")]

/-- The four defined conflict modes (spec §3 enum; the TypeScript
`ConflictMode` union lives in the types file). -/
def validConflictModes : List String :=
  ["newest_wins", "always_upload", "always_download", "ask_me"]

/-- Modelled from the spec: the backend `updateSaveSyncSettings` is not
under src/ (only its caller is); per §4.1/§8 it "fails with
`ValidationError` if `conflict_mode` is not a recognized value" and
otherwise persists the record. -/
def updateSaveSyncSettings (incoming : SaveSyncSettings) :
    Except String SaveSyncSettings :=
  if validConflictModes.contains incoming.conflict_mode then
    Except.ok incoming
  else
    Except.error "ValidationError"

/-- The stored settings after an update attempt: a rejected update
leaves the store unchanged (spec §7: "no partial mutation"). -/
def applySettingsUpdate (stored incoming : SaveSyncSettings) : SaveSyncSettings :=
  match updateSaveSyncSettings incoming with
  | Except.ok s => s
  | Except.error _ => stored

/-- Modelled from the spec: the module-level SyncProgress store setter
(src/utils/syncProgress is not under src/); per §5 "writes are
whole-value replacements" — the previous value is discarded. -/
def setSyncProgress (_previous incoming : SyncProgress) : SyncProgress :=
  incoming

/-- The `sync_progress` event listener (src/index.tsx lines 98-103):
forwards the whole event payload to `setSyncProgress`. -/
def syncProgressListener (store : SyncProgress) (event : SyncProgress) :
    SyncProgress :=
  setSyncProgress store event

/-- Modelled from the spec: the backend newest-wins resolver is not
under src/; per §4.2 "action = `upload` if local is strictly newer,
else `download`. Exact tie → `download`".  Mtimes are epoch
timestamps. -/
def resolveNewestWins (local_mtime remote_mtime : Int) : String :=
  if local_mtime > remote_mtime then "upload" else "download"

/-- `handleToggle` (PlatformSync.tsx lines 38-49): optimistically sets
the toggled platform's flag to `enabled`; if `savePlatformSync` throws
(`ok = false`) it maps the entry back to `!enabled`. -/
def handleToggle (platforms : List PlatformSyncSetting) (id : Int)
    (enabled : Bool) (ok : Bool) : List PlatformSyncSetting :=
  let optimistic := platforms.map
    (fun p => if p.id = id then { p with sync_enabled := enabled } else p)
  if ok then
    optimistic
  else
    optimistic.map
      (fun p => if p.id = id then { p with sync_enabled := !enabled } else p)

/-- `handleSetAll` (PlatformSync.tsx lines 51-59): snapshots the list,
optimistically sets every flag to `enabled`; if `setAllPlatformsSync`
throws it restores the snapshot. -/
def handleSetAll (platforms : List PlatformSyncSetting) (enabled : Bool)
    (ok : Bool) : List PlatformSyncSetting :=
  if ok then
    platforms.map (fun p => { p with sync_enabled := enabled })
  else
    platforms

/-- `collectionStore.SetAppsInCollection` (part_003): replaces the app
set of the collection with the given id. -/
def setAppsInCollection (cols : List SteamCollection) (cid : String)
    (apps : List Int) : List SteamCollection :=
  cols.map (fun c => if c.id = cid then { c with visibleApps := apps } else c)

/-- `clearAllRomMCollections` (part_003 lines 84-101): selects the
collections whose displayName starts with "RomM: " and sets each one's
app set to the empty list. -/
def clearAllRomMCollections (cols : List SteamCollection) :
    List SteamCollection :=
  (cols.filter (fun c => stringStartsWith c.displayName "RomM: ")).foldl
    (fun acc c => setAppsInCollection acc c.id []) cols

/-- The per-platform action taken by `createOrUpdateCollections`,
together with whether the Steam call succeeded (`ok = false` when the
call threw and was caught by the per-platform try/catch). -/
inductive CollectionAction where
  | updated (platformName : String) (ok : Bool)
  | created (platformName : String) (ok : Bool)
deriving DecidableEq, Repr

/-- The platform an action belongs to. -/
def CollectionAction.platform : CollectionAction → String
  | .updated n _ => n
  | .created n _ => n

/-- A freshly created collection.  `CreateCollection`'s id generation
is Steam-internal; the id is modelled as the collection name, which is
unique among RomM collections (platform names are record keys). -/
def newCollection (name : String) (apps : List Int) : SteamCollection :=
  { id := name, displayName := name, visibleApps := apps }

/-- One iteration of the `createOrUpdateCollections` loop (part_003
lines 33-57): look up an existing collection named
"RomM: <platformName>"; update it if found, create it otherwise; either
Steam call may throw (`fail`), which is caught per platform. -/
def processPlatform (cols : List SteamCollection) (fail : String → Bool)
    (platformName : String) (appIds : List Int) :
    List SteamCollection × CollectionAction :=
  let collectionName := "RomM: " ++ platformName
  match cols.find? (fun c => c.displayName == collectionName) with
  | some existing =>
    if fail collectionName then
      (cols, CollectionAction.updated platformName false)
    else
      (setAppsInCollection cols existing.id appIds,
        CollectionAction.updated platformName true)
  | none =>
    if fail collectionName then
      (cols, CollectionAction.created platformName false)
    else
      (cols ++ [newCollection collectionName appIds],
        CollectionAction.created platformName true)

/-- `createOrUpdateCollections` (part_003 lines 21-61): iterates the
platform → appIds entries in order, running `processPlatform` on each
and threading the collection store; returns the final store and the
per-platform action trace. -/
def createOrUpdateCollections (cols : List SteamCollection)
    (fail : String → Bool) :
    List (String × List Int) → List SteamCollection × List CollectionAction
  | [] => (cols, [])
  | (platformName, appIds) :: rest =>
    let step := processPlatform cols fail platformName appIds
    let restRun := createOrUpdateCollections step.1 fail rest
    (restRun.1, step.2 :: restRun.2)

/-- C1: a successful resolve removes exactly the resolved
`(rom_id, filename)` entry from the pending-conflicts list (every other
entry stays, nothing is added) and leaves the offline queue untouched;
a failed resolve leaves both the conflicts list and the offline queue
exactly as they were. -/
theorem resolve_success_removes_key_failure_intact
    (st : SaveSyncUIState) (conflict : PendingConflict) (resolution : String) :
    (∀ c : PendingConflict,
        c ∈ (handleResolve st conflict resolution true).1.conflicts ↔
          c ∈ st.conflicts ∧
            ¬(c.rom_id = conflict.rom_id ∧ c.filename = conflict.filename))
    ∧ (handleResolve st conflict resolution true).1.failedOps = st.failedOps
    ∧ (handleResolve st conflict resolution false).1.conflicts = st.conflicts
    ∧ (handleResolve st conflict resolution false).1.failedOps = st.failedOps := by
  refine ⟨?_, rfl, rfl, rfl⟩
  intro c
  simp [handleResolve, List.mem_filter, not_and]
  tauto

/-- C1 witness: resolving the open conflict `(7, "save.dat")` with a
successful upload keeps the unrelated conflict `(8, "other.dat")`,
drops the resolved one, and leaves the (empty) offline queue empty. -/
theorem resolve_success_removes_key_witness :
    (⟨8, "other.dat", "t2"⟩ : PendingConflict) ∈
        (handleResolve ⟨none, [⟨7, "save.dat", "t1"⟩, ⟨8, "other.dat", "t2"⟩], [],
            false, "", none, none⟩
          ⟨7, "save.dat", "t1"⟩ "upload" true).1.conflicts
    ∧ (⟨7, "save.dat", "t1"⟩ : PendingConflict) ∉
        (handleResolve ⟨none, [⟨7, "save.dat", "t1"⟩, ⟨8, "other.dat", "t2"⟩], [],
            false, "", none, none⟩
          ⟨7, "save.dat", "t1"⟩ "upload" true).1.conflicts
    ∧ (handleResolve ⟨none, [⟨7, "save.dat", "t1"⟩, ⟨8, "other.dat", "t2"⟩], [],
            false, "", none, none⟩
          ⟨7, "save.dat", "t1"⟩ "upload" true).1.failedOps = [] := by
  refine ⟨?_, ?_, ?_⟩
  · exact ((resolve_success_removes_key_failure_intact _ _ "upload").1 _).mpr
      ⟨by decide, by decide⟩
  · intro hmem
    exact (((resolve_success_removes_key_failure_intact _ _ "upload").1 _).mp hmem).2
      ⟨rfl, rfl⟩
  · exact (resolve_success_removes_key_failure_intact _ _ "upload").2.1

/-- C2: a retry that returns success removes exactly the retried
`(rom_id, filename)` entry from the offline-queue list; a retry that
returns failure, or that throws, leaves the queue list unchanged; the
conflicts list is never touched by a retry. -/
theorem retry_success_removes_failure_keeps
    (st : SaveSyncUIState) (item : OfflineQueueItem) :
    (∀ f : OfflineQueueItem,
        f ∈ (handleRetry st item (some true)).1.failedOps ↔
          f ∈ st.failedOps ∧
            ¬(f.rom_id = item.rom_id ∧ f.filename = item.filename))
    ∧ (handleRetry st item (some false)).1.failedOps = st.failedOps
    ∧ (handleRetry st item none).1.failedOps = st.failedOps
    ∧ (handleRetry st item (some true)).1.conflicts = st.conflicts := by
  refine ⟨?_, rfl, rfl, rfl⟩
  intro f
  simp [handleRetry, List.mem_filter, not_and]
  tauto

/-- C2 witness: retrying `(3, "game.sav")` successfully drops that
queue entry and keeps the unrelated entry `(4, "zelda.sav")`; a thrown
retry leaves the queue as-is. -/
theorem retry_success_removes_witness :
    (⟨4, "zelda.sav", "upload", "timeout", "t4", 1⟩ : OfflineQueueItem) ∈
        (handleRetry ⟨none, [],
            [⟨3, "game.sav", "download", "offline", "t3", 2⟩,
             ⟨4, "zelda.sav", "upload", "timeout", "t4", 1⟩],
            false, "", none, none⟩
          ⟨3, "game.sav", "download", "offline", "t3", 2⟩ (some true)).1.failedOps
    ∧ (⟨3, "game.sav", "download", "offline", "t3", 2⟩ : OfflineQueueItem) ∉
        (handleRetry ⟨none, [],
            [⟨3, "game.sav", "download", "offline", "t3", 2⟩,
             ⟨4, "zelda.sav", "upload", "timeout", "t4", 1⟩],
            false, "", none, none⟩
          ⟨3, "game.sav", "download", "offline", "t3", 2⟩ (some true)).1.failedOps
    ∧ (handleRetry ⟨none, [],
            [⟨3, "game.sav", "download", "offline", "t3", 2⟩,
             ⟨4, "zelda.sav", "upload", "timeout", "t4", 1⟩],
            false, "", none, none⟩
          ⟨3, "game.sav", "download", "offline", "t3", 2⟩ none).1.failedOps =
        [⟨3, "game.sav", "download", "offline", "t3", 2⟩,
         ⟨4, "zelda.sav", "upload", "timeout", "t4", 1⟩] := by
  refine ⟨?_, ?_, ?_⟩
  · exact ((retry_success_removes_failure_keeps _ _).1 _).mpr ⟨by decide, by decide⟩
  · intro hmem
    exact (((retry_success_removes_failure_keeps _
        ⟨3, "game.sav", "download", "offline", "t3", 2⟩).1 _).mp hmem).2 ⟨rfl, rfl⟩
  · exact (retry_success_removes_failure_keeps _
      ⟨3, "game.sav", "download", "offline", "t3", 2⟩).2.2.1

/-- C5: whatever the prior queue contents, a `handleClearQueue` call
whose backend call completes empties the offline-queue list, issues
only the `clearOfflineQueue` backend call, attempts no
upload/download transfer, and leaves the conflicts list untouched. -/
theorem clear_queue_empties_without_transfers (st : SaveSyncUIState) :
    (handleClearQueue st true).1.failedOps = []
    ∧ (handleClearQueue st true).2 = [BackendCall.clearOfflineQueue]
    ∧ ((handleClearQueue st true).2.all fun b => !attemptsTransfer b) = true
    ∧ (handleClearQueue st true).1.conflicts = st.conflicts := by
  exact ⟨rfl, rfl, rfl, rfl⟩

/-- C6: every received `sync_progress` event replaces the stored
SyncProgress value with the event's whole payload: after the listener
runs, the store equals the event, whatever it held before. -/
theorem sync_progress_whole_value_replacement (store event : SyncProgress) :
    syncProgressListener store event = event
    ∧ (syncProgressListener store event).running = event.running
    ∧ (syncProgressListener store event).phase = event.phase
    ∧ (syncProgressListener store event).message = event.message := by
  exact ⟨rfl, rfl, rfl, rfl⟩

/-- C3 counterexample: a completed `syncAllSaves` call whose result
reports `conflicts = 0` does not trigger a refresh of the
pending-conflicts view — `getPendingConflicts` is not called and the
stale conflicts list survives even though a fresh (different) list was
available; and the result record carries only `message` and
`conflicts`, with no total-items field for the caller to read. -/
theorem syncall_zero_conflicts_no_refresh :
    BackendCall.getPendingConflicts ∉
        (handleSyncAll
          ⟨none, [⟨7, "save.dat", "t1"⟩], [], true, "", none, none⟩
          (some ⟨"Synced 3 saves", 0⟩) (some []) (some [])).2
    ∧ (handleSyncAll
          ⟨none, [⟨7, "save.dat", "t1"⟩], [], true, "", none, none⟩
          (some ⟨"Synced 3 saves", 0⟩) (some []) (some [])).1.conflicts =
        [⟨7, "save.dat", "t1"⟩] := by
  constructor
  · decide
  · rfl

/-- C3 (amended): a completed `syncAllSaves` call yields a record with
the outstanding-conflict count and a human-readable message, which the
handler displays; a strictly positive conflict count triggers the
caller to refresh its pending-conflicts view (the refreshed list
replaces the old one), while a zero count leaves the view as it was;
the handler always ends with `syncing = false` and refreshes the
offline-queue view. -/
theorem syncall_summary_and_conditional_refresh
    (st : SaveSyncUIState) (r : SyncAllResult)
    (fc : List PendingConflict) (fq : List OfflineQueueItem) :
    (handleSyncAll st (some r) (some fc) (some fq)).1.syncStatus = r.message
    ∧ (0 < r.conflicts →
        BackendCall.getPendingConflicts ∈
            (handleSyncAll st (some r) (some fc) (some fq)).2
        ∧ (handleSyncAll st (some r) (some fc) (some fq)).1.conflicts = fc)
    ∧ (r.conflicts = 0 →
        (handleSyncAll st (some r) (some fc) (some fq)).1.conflicts =
          st.conflicts)
    ∧ (handleSyncAll st (some r) (some fc) (some fq)).1.syncing = false
    ∧ (handleSyncAll st (some r) (some fc) (some fq)).1.failedOps = fq := by
  by_cases h : 0 < r.conflicts
  · refine ⟨?_, fun _ => ⟨?_, ?_⟩, fun h0 => absurd h0 (by omega), ?_, ?_⟩ <;>
      simp [handleSyncAll, loadConflicts, loadFailedOps, h]
  · have h0 : r.conflicts = 0 := by omega
    refine ⟨?_, fun hpos => absurd hpos h, fun _ => ?_, ?_, ?_⟩ <;>
      simp [handleSyncAll, loadConflicts, loadFailedOps, h]

/-- C3 witness: a result reporting two conflicts makes the handler
show the message, call `getPendingConflicts`, and replace the
conflicts view with the freshly fetched list. -/
theorem syncall_summary_witness :
    (handleSyncAll ⟨none, [], [], true, "", none, none⟩
        (some ⟨"Sync complete: 2 conflicts", 2⟩)
        (some [⟨7, "save.dat", "t1"⟩]) (some [])).1.syncStatus =
      "Sync complete: 2 conflicts"
    ∧ BackendCall.getPendingConflicts ∈
        (handleSyncAll ⟨none, [], [], true, "", none, none⟩
          (some ⟨"Sync complete: 2 conflicts", 2⟩)
          (some [⟨7, "save.dat", "t1"⟩]) (some [])).2
    ∧ (handleSyncAll ⟨none, [], [], true, "", none, none⟩
          (some ⟨"Sync complete: 2 conflicts", 2⟩)
          (some [⟨7, "save.dat", "t1"⟩]) (some [])).1.conflicts =
        [⟨7, "save.dat", "t1"⟩] :=
  ⟨(syncall_summary_and_conditional_refresh _ _ _ _).1,
   ((syncall_summary_and_conditional_refresh _ _ _ _).2.1 (by decide)).1,
   ((syncall_summary_and_conditional_refresh _ _ _ _).2.1 (by decide)).2⟩

/-- C4: every option the conflict-mode dropdown can submit carries one
of the four defined values; an update whose `conflict_mode` is not
recognized is rejected with `ValidationError` and leaves the stored
settings unchanged, while a recognized value is accepted as-is (never
coerced). -/
theorem conflict_mode_valid_options_unknown_rejected :
    (conflictModeOptions.all fun o => validConflictModes.contains o.1) = true
    ∧ (∀ stored incoming : SaveSyncSettings,
        validConflictModes.contains incoming.conflict_mode = false →
          updateSaveSyncSettings incoming = Except.error "ValidationError"
          ∧ applySettingsUpdate stored incoming = stored)
    ∧ (∀ incoming : SaveSyncSettings,
        validConflictModes.contains incoming.conflict_mode = true →
          updateSaveSyncSettings incoming = Except.ok incoming) := by
  refine ⟨by decide, ?_, ?_⟩
  · intro stored incoming h
    have h' : incoming.conflict_mode ∉ validConflictModes := by simpa using h
    constructor <;> simp [updateSaveSyncSettings, applySettingsUpdate, h']
  · intro incoming h
    have h' : incoming.conflict_mode ∈ validConflictModes := by simpa using h
    simp [updateSaveSyncSettings, h']

/-- C4 witness: submitting `conflict_mode = "bogus"` is rejected with
`ValidationError` and the stored record keeps `"newest_wins"`, while
submitting `"ask_me"` is accepted unchanged. -/
theorem conflict_mode_rejection_witness :
    updateSaveSyncSettings ⟨true, false, "bogus"⟩ =
        Except.error "ValidationError"
    ∧ applySettingsUpdate ⟨false, false, "newest_wins"⟩ ⟨true, false, "bogus"⟩ =
        ⟨false, false, "newest_wins"⟩
    ∧ updateSaveSyncSettings ⟨true, false, "ask_me"⟩ =
        Except.ok ⟨true, false, "ask_me"⟩ :=
  ⟨(conflict_mode_valid_options_unknown_rejected.2.1
      ⟨false, false, "newest_wins"⟩ ⟨true, false, "bogus"⟩ (by decide)).1,
   (conflict_mode_valid_options_unknown_rejected.2.1
      ⟨false, false, "newest_wins"⟩ ⟨true, false, "bogus"⟩ (by decide)).2,
   conflict_mode_valid_options_unknown_rejected.2.2
      ⟨true, false, "ask_me"⟩ (by decide)⟩

/-- C7: under `newest_wins` with both mtimes present, the resolution is
`upload` exactly when the local mtime is strictly greater than the
remote mtime, `download` otherwise; on an exact tie the resolution is
always `download`. -/
theorem newest_wins_strict_upload_tie_download (l r : Int) :
    (resolveNewestWins l r = "upload" ↔ r < l)
    ∧ (¬ r < l → resolveNewestWins l r = "download")
    ∧ (l = r → resolveNewestWins l r = "download") := by
  by_cases h : r < l
  · refine ⟨?_, fun hn => absurd h hn, fun he => absurd (he ▸ h) (lt_irrefl r)⟩
    simp [resolveNewestWins, h]
  · refine ⟨?_, fun _ => ?_, fun _ => ?_⟩ <;> simp [resolveNewestWins, h]

/-- C7 witness: local 7 vs remote 5 resolves to upload; local 5 vs
remote 7 and the exact tie 5 vs 5 both resolve to download. -/
theorem newest_wins_tie_witness :
    resolveNewestWins 7 5 = "upload"
    ∧ resolveNewestWins 5 7 = "download"
    ∧ resolveNewestWins 5 5 = "download" :=
  ⟨(newest_wins_strict_upload_tie_download 7 5).1.mpr (by decide),
   (newest_wins_strict_upload_tie_download 5 7).2.1 (by decide),
   (newest_wins_strict_upload_tie_download 5 5).2.2 rfl⟩

/-- C8 counterexample: with a single platform whose flag is already
`true`, a failing `handleToggle` call requesting `enabled = true`
leaves the flag at `false` — the negation of the requested value — and
not at its prior value `true`: the catch branch writes `!enabled`
rather than restoring a snapshot. -/
theorem toggle_failure_not_prior_value :
    handleToggle [⟨1, "NES", 10, true⟩] 1 true false = [⟨1, "NES", 10, false⟩]
    ∧ handleToggle [⟨1, "NES", 10, true⟩] 1 true false ≠
        [⟨1, "NES", 10, true⟩] := by
  decide

/-- C8 (amended): when a single-platform toggle's backend call fails,
the toggled platform's flag is set to the negation of the requested
value — which equals its prior value exactly when the request actually
changed the flag — and every other platform's entry is unchanged; when
the set-all backend call fails, the entire list is restored to the
exact snapshot taken before the change. -/
theorem toggle_setall_failure_semantics
    (ps : List PlatformSyncSetting) (id : Int) (enabled : Bool) :
    handleToggle ps id enabled false =
      ps.map (fun p =>
        if p.id = id then { p with sync_enabled := !enabled } else p)
    ∧ ((∀ p ∈ ps, p.id = id → p.sync_enabled = !enabled) →
        handleToggle ps id enabled false = ps)
    ∧ handleSetAll ps enabled false = ps := by
  have h1 : handleToggle ps id enabled false =
      ps.map (fun p =>
        if p.id = id then { p with sync_enabled := !enabled } else p) := by
    unfold handleToggle
    simp only [if_neg, Bool.false_eq_true, not_false_iff, List.map_map]
    apply List.map_congr_left
    intro p _
    by_cases hp : p.id = id
    · simp [Function.comp, hp]
    · simp [Function.comp, hp]
  refine ⟨h1, ?_, rfl⟩
  intro hprior
  rw [h1]
  have : ∀ p ∈ ps,
      (if p.id = id then { p with sync_enabled := !enabled } else p) = p := by
    intro p hp
    by_cases hid : p.id = id
    · obtain ⟨pid, pname, prc, pse⟩ := p
      have := hprior ⟨pid, pname, prc, pse⟩ hp hid
      simp_all
    · simp [hid]
  rw [List.map_congr_left this, List.map_id']

/-- C8 witness: toggling platform 1 from `true` to `false` with a
failing backend call restores the original two-platform list
exactly, and a failing set-all does the same. -/
theorem toggle_setall_failure_witness :
    handleToggle [⟨1, "NES", 10, true⟩, ⟨2, "SNES", 5, false⟩] 1 false false =
        [⟨1, "NES", 10, true⟩, ⟨2, "SNES", 5, false⟩]
    ∧ handleSetAll [⟨1, "NES", 10, true⟩, ⟨2, "SNES", 5, false⟩] true false =
        [⟨1, "NES", 10, true⟩, ⟨2, "SNES", 5, false⟩] :=
  ⟨(toggle_setall_failure_semantics
      [⟨1, "NES", 10, true⟩, ⟨2, "SNES", 5, false⟩] 1 false).2.1 (by decide),
   (toggle_setall_failure_semantics
      [⟨1, "NES", 10, true⟩, ⟨2, "SNES", 5, false⟩] 1 true).2.2⟩

/-- Folding `SetAppsInCollection · [] ` over a list of collections `L`
empties the app set of exactly those accumulator entries whose id
occurs in `L`. -/
theorem foldl_setApps_empty (L acc : List SteamCollection) :
    L.foldl (fun a c => setAppsInCollection a c.id []) acc =
      acc.map (fun c =>
        if c.id ∈ L.map SteamCollection.id then { c with visibleApps := [] }
        else c) := by
  induction L generalizing acc with
  | nil => simp
  | cons x L ih =>
    rw [List.foldl_cons, ih]
    unfold setAppsInCollection
    rw [List.map_map]
    apply List.map_congr_left
    intro c _
    by_cases hc : c.id = x.id
    · by_cases hm : c.id ∈ L.map SteamCollection.id
      · simp [Function.comp, hc, hm]
      · simp [Function.comp, hc, hm]
    · by_cases hm : c.id ∈ L.map SteamCollection.id
      · simp [Function.comp, hc, hm]
      · simp [Function.comp, hc, hm]

/-- C9: provided no two collections with the same id disagree on
bearing the "RomM: " name (true of Steam's unique collection ids),
`clearAllRomMCollections` maps each "RomM: "-named collection to the
same collection with an empty app set and leaves every other
collection untouched; no collection is deleted (the length is
preserved). -/
theorem clear_all_romm_clears_exactly_romm (cols : List SteamCollection)
    (h : ∀ c ∈ cols, ∀ d ∈ cols, c.id = d.id →
        stringStartsWith c.displayName "RomM: " =
          stringStartsWith d.displayName "RomM: ") :
    clearAllRomMCollections cols =
      cols.map (fun c =>
        if stringStartsWith c.displayName "RomM: " then
          { c with visibleApps := [] }
        else c)
    ∧ (clearAllRomMCollections cols).length = cols.length := by
  have main : clearAllRomMCollections cols =
      cols.map (fun c =>
        if stringStartsWith c.displayName "RomM: " then
          { c with visibleApps := [] }
        else c) := by
    unfold clearAllRomMCollections
    rw [foldl_setApps_empty]
    apply List.map_congr_left
    intro c hcmem
    by_cases hr : stringStartsWith c.displayName "RomM: " = true
    · rw [if_pos ?hin, if_pos hr]
      case hin =>
        exact List.mem_map_of_mem SteamCollection.id
          (List.mem_filter.mpr ⟨hcmem, hr⟩)
    · rw [if_neg ?hout, if_neg hr]
      case hout =>
        intro hm
        obtain ⟨d, hd, hid⟩ := List.mem_map.mp hm
        have hdmem := (List.mem_filter.mp hd).1
        have hdr := (List.mem_filter.mp hd).2
        exact hr ((h c hcmem d hdmem hid.symm) ▸ hdr)
  exact ⟨main, by rw [main]; exact List.length_map cols _⟩

/-- C9 witness: on a store holding one RomM collection and one
unrelated collection (distinct ids), clearing empties the RomM
collection's apps and leaves the other collection, and the store's
size, intact. -/
theorem clear_all_romm_witness :
    clearAllRomMCollections
        [⟨"a", "RomM: NES", [1, 2]⟩, ⟨"b", "Favorites", [3]⟩] =
      [⟨"a", "RomM: NES", []⟩, ⟨"b", "Favorites", [3]⟩] := by
  rw [(clear_all_romm_clears_exactly_romm
    [⟨"a", "RomM: NES", [1, 2]⟩, ⟨"b", "Favorites", [3]⟩] (by decide)).1]
  decide

/-- Each loop iteration emits an action tagged with its own platform,
whatever the store contents and whichever Steam calls fail. -/
theorem processPlatform_action_platform (cols : List SteamCollection)
    (fail : String → Bool) (platformName : String) (appIds : List Int) :
    (processPlatform cols fail platformName appIds).2.platform =
      platformName := by
  unfold processPlatform
  cases hfind : cols.find? (fun c => c.displayName == "RomM: " ++ platformName) with
  | none =>
    by_cases hf : fail ("RomM: " ++ platformName) = true <;>
      simp [hfind, hf, CollectionAction.platform]
  | some existing =>
    by_cases hf : fail ("RomM: " ++ platformName) = true <;>
      simp [hfind, hf, CollectionAction.platform]

/-- C10: `createOrUpdateCollections` emits exactly one action per input
platform, in input order, for every failure pattern of the Steam calls
— so a create/update failure for one platform never prevents the
remaining platforms from being processed; and each single step is an
update precisely when a collection named "RomM: <platformName>"
already exists, a create otherwise, succeeding exactly when the
corresponding Steam call does not throw. -/
theorem create_or_update_processes_each_platform_once
    (cols : List SteamCollection) (fail : String → Bool)
    (platforms : List (String × List Int)) :
    (createOrUpdateCollections cols fail platforms).2.map
        CollectionAction.platform =
      platforms.map Prod.fst
    ∧ ∀ platformName appIds,
        (processPlatform cols fail platformName appIds).2 =
          if cols.any (fun c => c.displayName == "RomM: " ++ platformName) then
            CollectionAction.updated platformName
              (!fail ("RomM: " ++ platformName))
          else
            CollectionAction.created platformName
              (!fail ("RomM: " ++ platformName)) := by
  constructor
  · induction platforms generalizing cols with
    | nil => rfl
    | cons entry rest ih =>
      obtain ⟨platformName, appIds⟩ := entry
      unfold createOrUpdateCollections
      simp only [List.map_cons]
      exact congrArg₂ List.cons
        (processPlatform_action_platform cols fail platformName appIds)
        (ih (processPlatform cols fail platformName appIds).1)
  · intro platformName appIds
    unfold processPlatform
    cases hf : cols.find? (fun c => c.displayName == "RomM: " ++ platformName) with
    | none =>
      have hany :
          cols.any (fun c => c.displayName == "RomM: " ++ platformName) = false := by
        rw [List.any_eq_false]
        intro c hc
        exact List.find?_eq_none.mp hf c hc
      by_cases hfl : fail ("RomM: " ++ platformName) = true <;>
        simp [hf, hany, hfl]
    | some existing =>
      have hp := List.find?_some hf
      have hmem := List.mem_of_find?_eq_some hf
      have hany :
          cols.any (fun c => c.displayName == "RomM: " ++ platformName) = true := by
        rw [List.any_eq_true]
        exact ⟨existing, hmem, hp⟩
      by_cases hfl : fail ("RomM: " ++ platformName) = true <;>
        simp [hf, hany, hfl]

end RommSync
